import Mathlib

/-!
Verification of the tennis-elbow-hub ingestion pipeline: a shallow embedding
of the wire decoder (`parser.py`), the snapshot lifecycle tracker and the
stats aggregator (`stats_service.py`), with theorems settling the spec's
claims about them.  Machine integers are modelled as `Nat`; the database is
modelled as an explicit store value threaded through the aggregator; Python
exceptions (the `IntegrityError` raised by the unique constraint) are
modelled as explicit branches that leave the store unchanged.
-/

namespace TennisHub

/-! ## String helpers

Python string primitives used by the source, modelled on `List Char`.
All definitions are structurally recursive so that concrete evaluation
reduces in the kernel. -/

/-- Split a character list at the first occurrence of (non-empty) `sep`:
`some (before, after)` when `sep` occurs, `none` otherwise.  Mirrors the
combination of Python `sep in s` and `s.split(sep, 1)`. -/
def splitFirst (sep : List Char) : List Char → Option (List Char × List Char)
  | [] => none
  | c :: cs =>
    if sep.isPrefixOf (c :: cs) then some ([], (c :: cs).drop sep.length)
    else (splitFirst sep cs).map fun p => (c :: p.1, p.2)

/-- Python `sep in s` for a non-empty separator. -/
def containsSub (sep : List Char) (l : List Char) : Bool :=
  (splitFirst sep l).isSome

/-- Python `str.strip()`: drop whitespace from both ends. -/
def stripChars (l : List Char) : List Char :=
  (((l.dropWhile Char.isWhitespace).reverse).dropWhile Char.isWhitespace).reverse

/-- Python `str.strip()` packaged on `String`. -/
def stripStr (s : String) : String := String.mk (stripChars s.data)

/-- Python `str.lower()` (ASCII case suffices for the values compared here). -/
def lowerStr (s : String) : String := String.mk (s.data.map Char.toLower)

/-- Python `str.split()` with no argument: whitespace-separated words,
no empty words.  The accumulator holds the current word reversed. -/
def wordsAux : List Char → List Char → List (List Char)
  | [], acc => if acc.isEmpty then [] else [acc.reverse]
  | c :: cs, acc =>
    if c.isWhitespace then
      if acc.isEmpty then wordsAux cs [] else acc.reverse :: wordsAux cs []
    else wordsAux cs (c :: acc)

/-- Python `str.split()` with no argument. -/
def words (s : String) : List (List Char) := wordsAux s.data []

/-- Python `int` applied to a non-empty string of decimal digits. -/
def natOfDigits (l : List Char) : Nat :=
  l.foldl (fun a c => a * 10 + (c.toNat - 48)) 0

/-! ## GameInfo bitfield (`parser.py`, `parse_game_info_bitfield`)

Enums from `app/models/game_server.py`; `IntEnum` construction
`PlayerConfig(raw)` raising `ValueError` out of range is modelled by the
partial conversion `...OfNat`, and the source's `try/except` fallback by
`Option.getD` with the source file's fallback constant. -/

inductive PlayerConfig where
  | SINGLES
  | UNKNOWN_1
  | COMPETITIVE_DOUBLES
  | COOPERATIVE_DOUBLES
deriving DecidableEq

inductive SkillMode where
  | BEGINNER
  | INTERMEDIATE
  | ADVANCED
  | EXPERT
deriving DecidableEq

inductive ControlMode where
  | KEYBOARD
  | MOUSE
  | GAMEPAD
  | MIXED
deriving DecidableEq

def PlayerConfig.toNat : PlayerConfig → Nat
  | .SINGLES => 0
  | .UNKNOWN_1 => 1
  | .COMPETITIVE_DOUBLES => 2
  | .COOPERATIVE_DOUBLES => 3

def SkillMode.toNat : SkillMode → Nat
  | .BEGINNER => 0
  | .INTERMEDIATE => 1
  | .ADVANCED => 2
  | .EXPERT => 3

def ControlMode.toNat : ControlMode → Nat
  | .KEYBOARD => 0
  | .MOUSE => 1
  | .GAMEPAD => 2
  | .MIXED => 3

/-- `PlayerConfig(raw)`: `some` on the enum's values 0..3, `none` (the
`ValueError` case) otherwise. -/
def playerConfigOfNat : Nat → Option PlayerConfig
  | 0 => some .SINGLES
  | 1 => some .UNKNOWN_1
  | 2 => some .COMPETITIVE_DOUBLES
  | 3 => some .COOPERATIVE_DOUBLES
  | _ => none

/-- `SkillMode(raw)`: `some` on 0..3, `none` otherwise. -/
def skillModeOfNat : Nat → Option SkillMode
  | 0 => some .BEGINNER
  | 1 => some .INTERMEDIATE
  | 2 => some .ADVANCED
  | 3 => some .EXPERT
  | _ => none

/-- `ControlMode(raw)`: `some` on 0..3, `none` otherwise. -/
def controlModeOfNat : Nat → Option ControlMode
  | 0 => some .KEYBOARD
  | 1 => some .MOUSE
  | 2 => some .GAMEPAD
  | 3 => some .MIXED
  | _ => none

/-- Parsed GameInfo bitfield (`app/models/game_server.py`, `GameInfo`). -/
structure GameInfo where
  trial : Nat
  player_config : PlayerConfig
  nb_set : Nat
  skill_mode : SkillMode
  games_per_set : Nat
  control_mode : ControlMode
  preview : Nat
  tiredness : Bool
deriving DecidableEq

/-- Embedding of `parse_game_info_bitfield` (`app/services/parser.py`).
Bit extraction uses the source's shifts and masks; the `try/except
ValueError` blocks become `Option.getD` with the source's fallback
constants (note the source falls back to `INTERMEDIATE` for skill mode,
and the 2-bit extractions for skill and control can never be out of
range). -/
def parse_game_info_bitfield (value : Nat) : GameInfo :=
  let trial := (value >>> 0) &&& 0x3
  let player_cfg_raw := (value >>> 2) &&& 0x7
  let nb_set := (value >>> 5) &&& 0x3
  let skill_mode_raw := (value >>> 7) &&& 0x3
  let games_per_set := (value >>> 18) &&& 0x7
  let control_mode_raw := (value >>> 22) &&& 0x3
  let preview := (value >>> 24) &&& 0x7
  let tiredness := ((value >>> 27) &&& 0x1) ≠ 0
  { trial := trial
    player_config := (playerConfigOfNat player_cfg_raw).getD .SINGLES
    nb_set := nb_set
    skill_mode := (skillModeOfNat skill_mode_raw).getD .INTERMEDIATE
    games_per_set := games_per_set
    control_mode := (controlModeOfNat control_mode_raw).getD .KEYBOARD
    preview := preview
    tiredness := tiredness }

/-! ## Live server model (`app/models/game_server.py`, `GameServer`)

Pydantic fields relevant to the tracker and the aggregator.  `match_id`
is, in the source, a truncated SHA-256 hash of `creation_time_ms`,
`match_name` and `port`; the hash itself is opaque to every claim, so the
derived identifier is carried as a field of the record. -/
structure GameServer where
  ip : String
  port : Nat
  match_name : String
  game_info : GameInfo
  max_ping : Nat
  elo : Nat
  nb_game : Nat
  tag_line : String
  score : String
  other_elo : Int
  give_up_rate : Int
  reputation : Int
  surface_name : String
  creation_time_ms : Nat
  is_started : Bool
  match_id : String
deriving DecidableEq

/-- Embedding of the `player_names` computed field: split `match_name` on
the first `" vs "` and strip both sides, else `(match_name, "Unknown")`. -/
def player_names (s : GameServer) : String × String :=
  match splitFirst " vs ".data s.match_name.data with
  | some (a, b) => (String.mk (stripChars a), String.mk (stripChars b))
  | none => (s.match_name, "Unknown")

/-! ## Wire decoder (`app/services/parser.py`)

`SERVER_PATTERN` is an alternation of four classes tried left to right at
each position: quoted string, hexadecimal run, literal `*`, dotted-IP run.
`tokenize_server_line` selects the first truthy group, so an empty quoted
string is dropped.  The scan below reproduces `finditer`: at each
position the first class that matches wins, a maximal-munch run for the
character classes, and a position with no match is skipped. -/

def isHexChar (c : Char) : Bool :=
  c.isDigit || ('A' ≤ c && c ≤ 'F') || ('a' ≤ c && c ≤ 'f')

def isIpChar (c : Char) : Bool := c.isDigit || c = '.'

/-- One `finditer` scan over the characters; `fuel` bounds the recursion
and is instantiated with the input length, which every step stays under
because each step consumes at least one character. -/
def tokenizeAux : Nat → List Char → List String
  | 0, _ => []
  | _, [] => []
  | fuel + 1, c :: cs =>
    if c = '"' then
      if cs.contains '"' then
        let content := cs.takeWhile (fun x => x ≠ '"')
        let rest := (cs.dropWhile (fun x => x ≠ '"')).drop 1
        let toks := tokenizeAux fuel rest
        if content.isEmpty then toks else String.mk content :: toks
      else
        tokenizeAux fuel cs
    else if isHexChar c then
      String.mk (c :: cs.takeWhile isHexChar) :: tokenizeAux fuel (cs.dropWhile isHexChar)
    else if c = '*' then
      "*" :: tokenizeAux fuel cs
    else if isIpChar c then
      String.mk (c :: cs.takeWhile isIpChar) :: tokenizeAux fuel (cs.dropWhile isIpChar)
    else
      tokenizeAux fuel cs

/-- Embedding of `tokenize_server_line`. -/
def tokenize_server_line (line : String) : List String :=
  tokenizeAux (line.data.length + 1) line.data

/-- Run of decimal digits at the head: `some rest` when non-empty. -/
def chompDigits (l : List Char) : Option (List Char) :=
  if (l.takeWhile Char.isDigit).isEmpty then none
  else some (l.dropWhile Char.isDigit)

/-- A literal dot at the head. -/
def chompDot : List Char → Option (List Char)
  | '.' :: rest => some rest
  | _ => none

/-- Python `re.match(r"^\d+\.\d+\.\d+\.\d+$", t)` as a Boolean: four digit
runs separated by dots spanning the whole token (`$` also accepts one
trailing newline, as in Python). -/
def is_dotted_quad (t : String) : Bool :=
  match (do
    let r1 ← chompDigits t.data
    let r2 ← chompDot r1
    let r3 ← chompDigits r2
    let r4 ← chompDot r3
    let r5 ← chompDigits r4
    let r6 ← chompDot r5
    chompDigits r6 : Option (List Char)) with
  | some [] => true
  | some ['\n'] => true
  | _ => false

/-- Python `re.match(r"^[0-9A-Fa-f]+$", t)` as a Boolean. -/
def is_hex_token (t : String) : Bool :=
  !(t.data.takeWhile isHexChar).isEmpty &&
    (t.data.dropWhile isHexChar = [] || t.data.dropWhile isHexChar = ['\n'])

/-- The `is_boundary` expression of `parse_server_data`
(`app/services/parser.py`): the token is `"0"`, `"*"`, the literal
`"0.0.0.0"` or any dotted quad, or — once at least 14 tokens have been
accumulated — any full hexadecimal token that is not the stream's last. -/
def is_boundary_tok (curLen : Nat) (t : String) (hasNext : Bool) : Bool :=
  t = "0" || t = "*" || t = "0.0.0.0" || is_dotted_quad t ||
    (decide (0 < curLen) && decide (14 ≤ curLen) && is_hex_token t && hasNext)

/-- The split condition of the `parse_server_data` loop: `is_boundary`
together with a non-empty current record of at least 14 tokens. -/
def splitHappens (cur : List String) (t : String) (hasNext : Bool) : Bool :=
  is_boundary_tok cur.length t hasNext && !cur.isEmpty && decide (14 ≤ cur.length)

/-- The record-splitting loop of `parse_server_data`: accumulated token
groups, each emitted (at a boundary or at end of stream) only when it has
at least 14 tokens. -/
def splitRecordsAux : List String → List String → List (List String)
  | [], current => if 14 ≤ current.length then [current] else []
  | t :: rest, current =>
    if splitHappens current t (!rest.isEmpty) then
      current :: splitRecordsAux rest [t]
    else
      splitRecordsAux rest (current ++ [t])

/-- Embedding of `parse_server_data` down to the token groups handed to
`parse_server_entry` (each group's first 14 tokens are its positional
fields). -/
def parse_server_data_records (tokens : List String) : List (List String) :=
  splitRecordsAux tokens []

/-! ## Snapshot lifecycle tracker (`app/services/stats_service.py`,
`StatsService.track_matches`)

The per-missing-record classification of the tracking loop.  The lookup
of a missing record's identity key in the dictionary of newly appeared
records is represented by its result, an `Option GameServer`. -/

/-- `MIN_GAMES_THRESHOLD` of `StatsService`. -/
def MIN_GAMES_THRESHOLD : Nat := 5

/-- The `_get_identity_key` helper of `track_matches`. -/
def identity_key (s : GameServer) : Nat × Nat × String × Nat × PlayerConfig :=
  (s.creation_time_ms, s.port, s.surface_name, s.game_info.nb_set,
    s.game_info.player_config)

/-- Name set built in the rename-detection branch:
`{n.lower().strip() for n in server.player_names if n != "Unknown"}`
(list membership stands in for the Python set; duplicates do not affect
emptiness, membership or intersection). -/
def nameSet (s : GameServer) : List String :=
  ([(player_names s).1, (player_names s).2].filter
      (fun n => n ≠ "Unknown")).map (fun n => stripStr (lowerStr n))

/-- Rename classification of a missing record against the new record (if
any) sharing its identity key: the source's `is_p1_waiting`/`has_overlap`
test followed by the game-count comparison; `true` means the loop
executes `continue` and the record is not treated as finished. -/
def is_renamed (server : GameServer) (migrated : Option GameServer) : Bool :=
  match migrated with
  | none => false
  | some m =>
    let p1 := nameSet server
    let p2 := nameSet m
    let is_p1_waiting := p1.isEmpty || p1.contains "waiting"
    let has_overlap := is_p1_waiting || p2.isEmpty || p1.any (fun n => p2.contains n)
    has_overlap && decide (server.nb_game ≤ m.nb_game)

/-- Whether `track_matches` hands a missing record to
`_try_finish_match`: not classified as renamed, and the source's
validation `is_started and nb_game >= MIN_GAMES_THRESHOLD`. -/
def handed_to_finish (server : GameServer) (migrated : Option GameServer) : Bool :=
  !(is_renamed server migrated) && server.is_started &&
    decide (MIN_GAMES_THRESHOLD ≤ server.nb_game)

/-! ## Stats aggregator (`app/services/stats_service.py`)

The persistent store: the `finished_matches` table (unique on `match_id`)
and the `daily_stats` table (unique on `stats_date`, twelve counters).
Dates are abstract (`Nat`).  `_try_finish_match` becomes a store
transformer returning the source's Boolean; the transaction semantics is
explicit — the duplicate-key branch (`IntegrityError` at `flush`) and the
invalid-score branch return the store unchanged, the success branch
commits all three writes. -/

/-- One row of `finished_matches` (`app/models/finished_match.py`). -/
structure FinishedRow where
  match_id : String
  date : Nat
  match_name : String
  score : String
  winner : Option String
deriving DecidableEq

/-- One row of `daily_stats` (`app/models/daily_stats.py`); counters
default to zero as in the model's column defaults. -/
structure DailyRow where
  stats_date : Nat
  xkt_total : Nat := 0
  xkt_bo1 : Nat := 0
  xkt_bo3 : Nat := 0
  xkt_bo5 : Nat := 0
  wtsl_total : Nat := 0
  wtsl_bo1 : Nat := 0
  wtsl_bo3 : Nat := 0
  wtsl_bo5 : Nat := 0
  vanilla_total : Nat := 0
  vanilla_bo1 : Nat := 0
  vanilla_bo3 : Nat := 0
  vanilla_bo5 : Nat := 0
deriving DecidableEq

/-- The database state shared by all workers. -/
structure Store where
  finished : List FinishedRow
  daily : List DailyRow
deriving DecidableEq

def Store.empty : Store := ⟨[], []⟩

inductive Mod where
  | wtsl
  | xkt
  | vanilla
deriving DecidableEq

inductive Fmt where
  | bo1
  | bo3
  | bo5
deriving DecidableEq

/-- Embedding of `StatsService._detect_mod`. -/
def detect_mod (s : GameServer) : Mod :=
  let tag := lowerStr s.tag_line
  if containsSub "wtsl".data tag.data then Mod.wtsl
  else if containsSub "xkt".data tag.data then Mod.xkt
  else Mod.vanilla

/-- Embedding of `StatsService._detect_format`. -/
def detect_format (s : GameServer) : Fmt :=
  match s.game_info.nb_set with
  | 0 => Fmt.bo1
  | 1 => Fmt.bo1
  | 2 => Fmt.bo3
  | 3 => Fmt.bo5
  | _ => Fmt.bo1

/-- The relative-increment `update` statement: bump `{mod}_total` and
`{mod}_{fmt}` of one row. -/
def incrCounters (r : DailyRow) : Mod → Fmt → DailyRow
  | .wtsl, .bo1 => { r with wtsl_total := r.wtsl_total + 1, wtsl_bo1 := r.wtsl_bo1 + 1 }
  | .wtsl, .bo3 => { r with wtsl_total := r.wtsl_total + 1, wtsl_bo3 := r.wtsl_bo3 + 1 }
  | .wtsl, .bo5 => { r with wtsl_total := r.wtsl_total + 1, wtsl_bo5 := r.wtsl_bo5 + 1 }
  | .xkt, .bo1 => { r with xkt_total := r.xkt_total + 1, xkt_bo1 := r.xkt_bo1 + 1 }
  | .xkt, .bo3 => { r with xkt_total := r.xkt_total + 1, xkt_bo3 := r.xkt_bo3 + 1 }
  | .xkt, .bo5 => { r with xkt_total := r.xkt_total + 1, xkt_bo5 := r.xkt_bo5 + 1 }
  | .vanilla, .bo1 => { r with vanilla_total := r.vanilla_total + 1, vanilla_bo1 := r.vanilla_bo1 + 1 }
  | .vanilla, .bo3 => { r with vanilla_total := r.vanilla_total + 1, vanilla_bo3 := r.vanilla_bo3 + 1 }
  | .vanilla, .bo5 => { r with vanilla_total := r.vanilla_total + 1, vanilla_bo5 := r.vanilla_bo5 + 1 }

/-- Embedding of `StatsService._ensure_daily_record` as executed with no
concurrent creator of the day's row: create the row if absent.  In that
serialized execution the `except IntegrityError` branch of the source is
unreachable.  The branch IS reachable when a concurrent worker commits
the day's row between the existence check and the flush, and it then
issues `session.rollback()`, aborting the WHOLE open transaction — that
racy interleaving is modelled separately by the race variant of the
finish operation below, not by this function. -/
def ensure_daily_record (dl : List DailyRow) (d : Nat) : List DailyRow :=
  if dl.any (fun r => r.stats_date = d) then dl
  else dl ++ [{ stats_date := d }]

/-- The aggregate-update statement of `_try_finish_match`: increment the
counters of every `daily_stats` row whose date is `d` (the date column is
unique, so at most one in any reachable store). -/
def updateDaily (dl : List DailyRow) (d : Nat) (m : Mod) (f : Fmt) : List DailyRow :=
  dl.map (fun r => if r.stats_date = d then incrCounters r m f else r)

/-- Score normalization of `_try_finish_match`: strip a `" -- "`
suffix. -/
def normalize_score (score : String) : String :=
  match splitFirst " -- ".data score.data with
  | some (pre, _) => String.mk (stripChars pre)
  | none => score

/-- The rejection test of `_try_finish_match` on the cleaned score. -/
def invalid_score (c : String) : Bool :=
  c = "" || c = "..." || c = "0/0"

/-! ### Winner deduction (`StatsService._determine_winner`) -/

/-- Accumulator of the per-set loop of `_determine_winner`. -/
structure ScoreStats where
  p1_sets : Nat
  p2_sets : Nat
  p1_last : Nat
  p2_last : Nat
deriving DecidableEq

/-- One iteration of the per-set loop: skip tokens without `/`, read
`parts[0]`'s digits and the digits of `parts[1]` up to a tiebreak
parenthesis, skip when either side has no digit, else count the won set
and remember the games. -/
def stepSet (st : ScoreStats) (s : List Char) : ScoreStats :=
  match splitFirst ['/'] s with
  | none => st
  | some (part0, rest) =>
    let part1 := match splitFirst ['/'] rest with
      | some (p, _) => p
      | none => rest
    let g1s := part0.filter Char.isDigit
    let beforeParen := match splitFirst ['('] part1 with
      | some (p, _) => p
      | none => part1
    let g2s := beforeParen.filter Char.isDigit
    if g1s.isEmpty || g2s.isEmpty then st
    else
      let g1 := natOfDigits g1s
      let g2 := natOfDigits g2s
      { p1_sets := st.p1_sets + (if g2 < g1 then 1 else 0)
        p2_sets := st.p2_sets + (if g1 < g2 then 1 else 0)
        p1_last := g1
        p2_last := g2 }

/-- The whole per-set loop over the whitespace-separated score tokens. -/
def scoreStats (sets : List (List Char)) : ScoreStats :=
  sets.foldl stepSet ⟨0, 0, 0, 0⟩

/-- The final comparison chain of `_determine_winner`. -/
def winnerFromStats (p1 p2 : String) (st : ScoreStats) : Option String :=
  if st.p2_sets < st.p1_sets then some p1
  else if st.p1_sets < st.p2_sets then some p2
  else if st.p2_last < st.p1_last then some p1
  else if st.p1_last < st.p2_last then some p2
  else none

/-- Embedding of `StatsService._determine_winner`. -/
def determine_winner (match_name clean_score : String) : Option String :=
  if clean_score = "" || !containsSub " vs ".data match_name.data then none
  else
    match splitFirst " vs ".data match_name.data with
    | none => none
    | some (a, b) =>
      winnerFromStats (String.mk (stripChars a)) (String.mk (stripChars b))
        (scoreStats (words clean_score))

/-- Embedding of `StatsService._try_finish_match` as a store transformer:
`(returned Boolean, store after the transaction)`. -/
def try_finish_match (server : GameServer) (d : Nat) (st : Store) : Bool × Store :=
  let clean_score := normalize_score server.score
  if invalid_score clean_score then (false, st)
  else if st.finished.any (fun r => r.match_id = server.match_id) then
    (false, st)
  else
    let row : FinishedRow :=
      { match_id := server.match_id
        date := d
        match_name := server.match_name
        score := clean_score
        winner := determine_winner server.match_name clean_score }
    let dl := ensure_daily_record st.daily d
    (true, { finished := st.finished ++ [row]
             daily := updateDaily dl d (detect_mod server) (detect_format server) })

/-- The row inserted by a successful finish call. -/
def insertedRow (s : GameServer) (d : Nat) : FinishedRow :=
  { match_id := s.match_id
    date := d
    match_name := s.match_name
    score := normalize_score s.score
    winner := determine_winner s.match_name (normalize_score s.score) }

/-- Embedding of `StatsService._try_finish_match` under the interleaving
in which a concurrent worker commits the day's `daily_stats` row between
the existence check and the flush inside `_ensure_daily_record`.  The
insert of the day's row then violates the unique date constraint, and the
`except IntegrityError` handler of `_ensure_daily_record` calls
`session.rollback()` — aborting the WHOLE open transaction, including the
already-flushed FinishedMatch insert — and returns normally.
`_try_finish_match` resumes: the counter `update` statement autobegins a
fresh transaction, the final `commit` persists that increment alone, and
the call returns `true`.  When the day's row already exists at the
existence check this interleaving is impossible and the call commits the
normal single-transaction result; the score-rejection and duplicate
`match_id` branches are as in the serialized embedding. -/
def try_finish_match_race (server : GameServer) (d : Nat) (st : Store) : Bool × Store :=
  let clean_score := normalize_score server.score
  if invalid_score clean_score then (false, st)
  else if st.finished.any (fun r => r.match_id = server.match_id) then
    (false, st)
  else if st.daily.any (fun r => r.stats_date = d) then
    (true, { finished := st.finished ++ [insertedRow server d]
             daily := updateDaily st.daily d (detect_mod server) (detect_format server) })
  else
    let dl := st.daily ++ [{ stats_date := d }]
    (true, { finished := st.finished
             daily := updateDaily dl d (detect_mod server) (detect_format server) })

/-! ## Counter accounting for the aggregator claims -/

/-- Sum of the three per-mod total counters of one `daily_stats` row. -/
def rowTotal (r : DailyRow) : Nat := r.xkt_total + r.wtsl_total + r.vanilla_total

/-- Sum of the nine per-mod per-format counters of one row. -/
def rowBo (r : DailyRow) : Nat :=
  r.xkt_bo1 + r.xkt_bo3 + r.xkt_bo5 + r.wtsl_bo1 + r.wtsl_bo3 + r.wtsl_bo5 +
    r.vanilla_bo1 + r.vanilla_bo3 + r.vanilla_bo5

/-- Total counters accumulated for day `d` across the `daily_stats` table. -/
def sumT (dl : List DailyRow) (d : Nat) : Nat :=
  (dl.map (fun r => if r.stats_date = d then rowTotal r else 0)).sum

/-- Per-format counters accumulated for day `d`. -/
def sumB (dl : List DailyRow) (d : Nat) : Nat :=
  (dl.map (fun r => if r.stats_date = d then rowBo r else 0)).sum

/-- Number of `finished_matches` rows dated `d`. -/
def countFin (fl : List FinishedRow) (d : Nat) : Nat :=
  fl.countP (fun r => r.date = d)

/-- Number of `daily_stats` rows dated `d`. -/
def countDate (dl : List DailyRow) (d : Nat) : Nat :=
  dl.countP (fun r => r.stats_date = d)

/-- The invariant claimed for the aggregator: every day's counters equal
the number of finished rows of that day (a counter is never incremented
without its row). -/
def CountersMatch (st : Store) : Prop :=
  ∀ d, sumT st.daily d = countFin st.finished d ∧ sumB st.daily d = countFin st.finished d

/-! ## Concrete fixtures used by witnesses and counterexamples -/

/-- A game configuration fixture (best-of-3 singles). -/
def giFix : GameInfo :=
  { trial := 1, player_config := .SINGLES, nb_set := 2, skill_mode := .INTERMEDIATE,
    games_per_set := 3, control_mode := .KEYBOARD, preview := 1, tiredness := true }

/-- A started match record fixture. -/
def srvAliceBob : GameServer :=
  { ip := "0.0.0.0", port := 4000, match_name := "Alice vs Bob", game_info := giFix,
    max_ping := 100, elo := 1500, nb_game := 6, tag_line := "XKT v4.2d", score := "6/4 7/5",
    other_elo := 1400, give_up_rate := 0, reputation := 0, surface_name := "Clay",
    creation_time_ms := 697681, is_started := true, match_id := "m_alice_bob" }

/-- A new record sharing `srvAliceBob`'s identity key whose name is the
waiting sentinel. -/
def srvWaitingNew : GameServer :=
  { srvAliceBob with match_name := "Waiting", match_id := "m_waiting", is_started := false }

/-- A previous record whose name is the waiting sentinel. -/
def srvWaitingPrev : GameServer :=
  { srvAliceBob with match_name := "Waiting", match_id := "m_prev_waiting" }

/-- A new record sharing `srvWaitingPrev`'s identity key under a real
pairing name. -/
def srvCarolDave : GameServer :=
  { srvAliceBob with match_name := "Carol vs Dave", match_id := "m_carol_dave" }

/-- `srvAliceBob` vanished at four games. -/
def srvFourGames : GameServer := { srvAliceBob with nb_game := 4, match_id := "m_four" }

/-- `srvAliceBob` vanished at five games. -/
def srvFiveGames : GameServer := { srvAliceBob with nb_game := 5, match_id := "m_five" }

/-- `srvAliceBob` with the placeholder score. -/
def srvPlaceholderScore : GameServer := { srvAliceBob with score := "0/0" }

/-- Fourteen tokens of one wire record. -/
def rec14 : List String :=
  ["0", "F32B", "H.Hurkacz vs P.1", "18198F21", "12C", "7BF", "2A7",
   "XKT v4.2d", "4/3 -- 40:Ad", "8A7", "4", "1B", "0010 AO Rod Laver Night", "69767FCC"]

/-! ## Claims about the wire decoder -/

/-- C5: the tokenizer does NOT capture a full dotted quad as one token: a
literal `"0"` does come out as the single token `"0"`, but `"0.0.0.0"`
splits into the hexadecimal token `"0"` and the dotted remainder
`".0.0.0"`, because the hexadecimal alternative is tried before the
dotted-IP alternative and consumes the leading digit run.  This theorem
evaluates the embedded tokenizer at the failing input. -/
theorem tokenizer_dotted_quad_split :
    tokenize_server_line "0" = ["0"] ∧
    tokenize_server_line "0.0.0.0" = ["0", ".0.0.0"] ∧
    tokenize_server_line "0.0.0.0" ≠ ["0.0.0.0"] := by decide

/-- Token groups emitted by `splitRecordsAux` always hold at least 14
tokens: every emission site is guarded by the 14-token threshold. -/
theorem splitRecordsAux_mem_length (ts : List String) :
    ∀ cur r, r ∈ splitRecordsAux ts cur → 14 ≤ r.length := by
  induction ts with
  | nil =>
    intro cur r h
    simp only [splitRecordsAux] at h
    split at h
    · rcases List.mem_singleton.mp h with rfl
      assumption
    · simp at h
  | cons t rest ih =>
    intro cur r h
    simp only [splitRecordsAux] at h
    split at h
    · rcases List.mem_cons.mp h with rfl | h
      · rename_i hs
        have := (Bool.and_eq_true _ _).mp hs
        exact of_decide_eq_true this.2
      · exact ih _ _ h
    · exact ih _ _ h

/-- C6 counterexample: with 14 tokens accumulated, the plain hexadecimal
token `"1A"` — which is neither `"0"` nor `"*"` nor a dotted quad —
declares a record boundary, so the stream `rec14 ++ ["1A", "FF"]` is split
after `rec14` (and the two-token tail is dropped) instead of forming one
record as the claim predicts. -/
theorem boundary_hex_token_splits :
    is_boundary_tok 14 "1A" true = true ∧
    splitHappens rec14 "1A" true = true ∧
    ¬("1A" = "0" ∨ "1A" = "*" ∨ is_dotted_quad "1A" = true) ∧
    parse_server_data_records (rec14 ++ ["1A", "FF"]) = [rec14] ∧
    parse_server_data_records (rec14 ++ ["1A", "FF"]) ≠ [rec14 ++ ["1A", "FF"]] := by
  decide

/-- C6 amended: a record boundary is declared at a token exactly when at
least 14 tokens have been accumulated AND the token is `"0"`, `"*"`,
`"0.0.0.0"`, a full dotted quad, or a full hexadecimal token that is not
the last token of the stream; each emitted record has at least 14 tokens,
of which the first 14 are used positionally. -/
theorem boundary_amended :
    (∀ (cur : List String) (t : String) (hasNext : Bool),
        splitHappens cur t hasNext = true ↔
          (14 ≤ cur.length ∧ (t = "0" ∨ t = "*" ∨ t = "0.0.0.0" ∨
            is_dotted_quad t = true ∨ (is_hex_token t = true ∧ hasNext = true)))) ∧
    (∀ (ts : List String) (r : List String),
        r ∈ parse_server_data_records ts → 14 ≤ r.length) := by
  constructor
  · intro cur t hasNext
    simp only [splitHappens, is_boundary_tok, Bool.and_eq_true, Bool.or_eq_true,
      decide_eq_true_eq, Bool.not_eq_true']
    constructor
    · rintro ⟨⟨hb, -⟩, hlen⟩
      exact ⟨hlen, by tauto⟩
    · rintro ⟨hlen, hb⟩
      have hne : cur.isEmpty = false := by
        cases cur
        · simp at hlen
        · rfl
      have h0 : 0 < cur.length := by omega
      exact ⟨⟨by tauto, hne⟩, hlen⟩
  · intro ts r h
    exact splitRecordsAux_mem_length ts [] r h

/-! ## Claims about the bitfield decoder -/

/-- C9: the bitfield decoder is total (it is a function on all of `Nat`,
the enum conversions falling back instead of failing) and every decoded
sub-field lies within its declared bit width's value range. -/
theorem bitfield_decode_total_ranges (v : Nat) (_hv : v < 2 ^ 32) :
    (parse_game_info_bitfield v).trial ≤ 3 ∧
    (parse_game_info_bitfield v).player_config.toNat ≤ 7 ∧
    (parse_game_info_bitfield v).nb_set ≤ 3 ∧
    (parse_game_info_bitfield v).skill_mode.toNat ≤ 3 ∧
    (parse_game_info_bitfield v).games_per_set ≤ 7 ∧
    (parse_game_info_bitfield v).control_mode.toNat ≤ 3 ∧
    (parse_game_info_bitfield v).preview ≤ 7 ∧
    ((parse_game_info_bitfield v).tiredness = true ∨
      (parse_game_info_bitfield v).tiredness = false) := by
  refine ⟨Nat.and_le_right, ?_, Nat.and_le_right, ?_, Nat.and_le_right, ?_,
    Nat.and_le_right, by cases (parse_game_info_bitfield v).tiredness <;> simp⟩
  · cases hpc : (parse_game_info_bitfield v).player_config <;> simp [PlayerConfig.toNat]
  · cases hsm : (parse_game_info_bitfield v).skill_mode <;> simp [SkillMode.toNat]
  · cases hcm : (parse_game_info_bitfield v).control_mode <;> simp [ControlMode.toNat]

/-- C9 witness at the sample bitfield value `0x1B198E41`. -/
theorem bitfield_decode_total_ranges_witness :
    (parse_game_info_bitfield 0x1B198E41).trial ≤ 3 ∧
    (parse_game_info_bitfield 0x1B198E41).player_config.toNat ≤ 7 ∧
    (parse_game_info_bitfield 0x1B198E41).nb_set ≤ 3 ∧
    (parse_game_info_bitfield 0x1B198E41).skill_mode.toNat ≤ 3 ∧
    (parse_game_info_bitfield 0x1B198E41).games_per_set ≤ 7 ∧
    (parse_game_info_bitfield 0x1B198E41).control_mode.toNat ≤ 3 ∧
    (parse_game_info_bitfield 0x1B198E41).preview ≤ 7 ∧
    ((parse_game_info_bitfield 0x1B198E41).tiredness = true ∨
      (parse_game_info_bitfield 0x1B198E41).tiredness = false) :=
  bitfield_decode_total_ranges 0x1B198E41 (by norm_num)

/-- The 2-bit skill extraction is never outside the enum's range. -/
theorem skillModeOfNat_total (x : Nat) (hx : x ≤ 3) : skillModeOfNat x ≠ none := by
  interval_cases x <;> simp [skillModeOfNat]

/-- The 2-bit control extraction is never outside the enum's range. -/
theorem controlModeOfNat_total (x : Nat) (hx : x ≤ 3) : controlModeOfNat x ≠ none := by
  interval_cases x <;> simp [controlModeOfNat]

/-- C10: whenever the extracted playerConfig, skillMode or controlMode
bits fall outside the corresponding enum's range (so that the enum
constructor raises and the `except` branch runs), the decoder yields the
fallback Singles, Beginner and Keyboard respectively.  Only the 3-bit
playerConfig extraction can actually be out of range; the skill and
control extractions are 2 bits wide, so their antecedents never hold. -/
theorem bitfield_enum_fallback (v : Nat) :
    (playerConfigOfNat ((v >>> 2) &&& 0x7) = none →
      (parse_game_info_bitfield v).player_config = PlayerConfig.SINGLES) ∧
    (skillModeOfNat ((v >>> 7) &&& 0x3) = none →
      (parse_game_info_bitfield v).skill_mode = SkillMode.BEGINNER) ∧
    (controlModeOfNat ((v >>> 22) &&& 0x3) = none →
      (parse_game_info_bitfield v).control_mode = ControlMode.KEYBOARD) := by
  refine ⟨?_, ?_, ?_⟩
  · intro h
    simp [parse_game_info_bitfield, h]
  · intro h
    exact absurd h (skillModeOfNat_total _ Nat.and_le_right)
  · intro h
    exact absurd h (controlModeOfNat_total _ Nat.and_le_right)

/-! ## Claims about the lifecycle tracker -/

/-- C3: a missing record not classified as renamed is handed to the
aggregator exactly when it had started and reached the five-game
threshold; in particular a started match vanishing at four games is not
counted and one vanishing at five games is. -/
theorem tracker_completion_eligibility :
    (∀ (server : GameServer) (migrated : Option GameServer),
        is_renamed server migrated = false →
        (handed_to_finish server migrated = true ↔
          (server.is_started = true ∧ 5 ≤ server.nb_game))) ∧
    handed_to_finish srvFourGames none = false ∧
    handed_to_finish srvFiveGames none = true := by
  refine ⟨?_, by decide, by decide⟩
  intro server migrated h
  simp [handed_to_finish, h, MIN_GAMES_THRESHOLD]

/-- C4 counterexample: the previous record `Alice vs Bob` (started, six
games) vanishes while `srvWaitingNew` appears with the same identity key,
equal game count, and the waiting sentinel as its name — one side is the
sentinel, so the claim says RENAMED and no finish event — yet the tracker
classifies the pair as not renamed and hands the record to the
aggregator, because the source checks the sentinel only on the previous
side. -/
theorem tracker_rename_waiting_new_side_counted :
    identity_key srvAliceBob = identity_key srvWaitingNew ∧
    srvAliceBob.nb_game ≤ srvWaitingNew.nb_game ∧
    nameSet srvWaitingNew = ["waiting"] ∧
    is_renamed srvAliceBob (some srvWaitingNew) = false ∧
    handed_to_finish srvAliceBob (some srvWaitingNew) = true := by decide

/-- C4 amended: for a previous record whose identity key matches a newly
appeared record with equal-or-greater game count, if the PREVIOUS side's
name-set is empty or contains the sentinel `"waiting"`, or the new side's
name-set is empty, or the two name-sets intersect, the pair is classified
RENAMED and no finish event is emitted; in particular a previous record
named by the waiting sentinel is never counted when such a candidate
exists. -/
theorem tracker_rename_amended :
    (∀ (prev m : GameServer),
        identity_key prev = identity_key m →
        (nameSet prev = [] ∨ "waiting" ∈ nameSet prev ∨ nameSet m = [] ∨
          ∃ n, n ∈ nameSet prev ∧ n ∈ nameSet m) →
        prev.nb_game ≤ m.nb_game →
        (is_renamed prev (some m) = true ∧ handed_to_finish prev (some m) = false)) ∧
    is_renamed srvWaitingPrev (some srvCarolDave) = true ∧
    handed_to_finish srvWaitingPrev (some srvCarolDave) = false := by
  refine ⟨?_, by decide, by decide⟩
  intro prev m _ hnames hg
  have hover : is_renamed prev (some m) = true := by
    simp only [is_renamed, Bool.and_eq_true, Bool.or_eq_true, decide_eq_true_eq]
    refine ⟨?_, hg⟩
    rcases hnames with h | h | h | ⟨n, hn1, hn2⟩
    · exact Or.inl (Or.inl (Or.inl (by simp [h])))
    · exact Or.inl (Or.inl (Or.inr (List.elem_iff.mpr h)))
    · exact Or.inl (Or.inr (by simp [h]))
    · exact Or.inr (List.any_eq_true.mpr ⟨n, hn1, List.elem_iff.mpr hn2⟩)
  refine ⟨hover, ?_⟩
  simp [handed_to_finish, hover]

/-! ## Claims about the stats aggregator -/

/-- C7: score normalization strips a `" -- "`-delimited live point
suffix, and the finish operation returns `false` with an unchanged store
whenever the normalized score is empty or one of the placeholders. -/
theorem score_normalization_rejection :
    normalize_score "6/3 4/6 1/1 -- 00:40" = "6/3 4/6 1/1" ∧
    (∀ (s : GameServer) (d : Nat) (st : Store),
        (normalize_score s.score = "" ∨ normalize_score s.score = "..." ∨
          normalize_score s.score = "0/0") →
        try_finish_match s d st = (false, st)) := by
  refine ⟨by decide, ?_⟩
  intro s d st h
  have hbad : invalid_score (normalize_score s.score) = true := by
    rcases h with h | h | h <;> simp [invalid_score, h]
  simp [try_finish_match, hbad]

/-- C8: winner deduction counts won sets from the slash-separated set
scores (tiebreak parentheses stripped), awards the match to the player
with more won sets, and tie-breaks on the games of the last parsed set
when the set counts are level; in particular `"6/4 7/5"` under
`"A vs B"` deduces `"A"`. -/
theorem winner_deduction :
    (∀ (p1 p2 : String) (st : ScoreStats),
        st.p2_sets < st.p1_sets → winnerFromStats p1 p2 st = some p1) ∧
    (∀ (p1 p2 : String) (st : ScoreStats),
        st.p1_sets < st.p2_sets → winnerFromStats p1 p2 st = some p2) ∧
    (∀ (p1 p2 : String) (st : ScoreStats),
        st.p1_sets = st.p2_sets → st.p2_last < st.p1_last →
        winnerFromStats p1 p2 st = some p1) ∧
    determine_winner "A vs B" "6/4 7/5" = some "A" ∧
    determine_winner "A vs B" "7/6(5) 3/6 6/3" = some "A" ∧
    determine_winner "A vs B" "6/4 4/6 1/3" = some "B" ∧
    determine_winner "A vs B" "4/6 3/6" = some "B" := by
  refine ⟨?_, ?_, ?_, by decide, by decide, by decide, by decide⟩
  · intro p1 p2 st h
    simp [winnerFromStats, h]
  · intro p1 p2 st h
    simp [winnerFromStats, h, Nat.lt_asymm h]
  · intro p1 p2 st he h
    simp [winnerFromStats, he, h]

/-! ## Counter accounting lemmas for the aggregator claims -/

theorem incrCounters_stats_date (r : DailyRow) (m : Mod) (f : Fmt) :
    (incrCounters r m f).stats_date = r.stats_date := by
  cases m <;> cases f <;> rfl

theorem rowTotal_incrCounters (r : DailyRow) (m : Mod) (f : Fmt) :
    rowTotal (incrCounters r m f) = rowTotal r + 1 := by
  cases m <;> cases f <;> simp [incrCounters, rowTotal] <;> omega

theorem rowBo_incrCounters (r : DailyRow) (m : Mod) (f : Fmt) :
    rowBo (incrCounters r m f) = rowBo r + 1 := by
  cases m <;> cases f <;> simp [incrCounters, rowBo] <;> omega

theorem sumT_cons (r : DailyRow) (tl : List DailyRow) (d : Nat) :
    sumT (r :: tl) d = (if r.stats_date = d then rowTotal r else 0) + sumT tl d := by
  simp [sumT]

theorem sumB_cons (r : DailyRow) (tl : List DailyRow) (d : Nat) :
    sumB (r :: tl) d = (if r.stats_date = d then rowBo r else 0) + sumB tl d := by
  simp [sumB]

theorem countDate_cons (r : DailyRow) (tl : List DailyRow) (d : Nat) :
    countDate (r :: tl) d = countDate tl d + (if r.stats_date = d then 1 else 0) := by
  simp [countDate, List.countP_cons]

theorem updateDaily_cons_pos (r : DailyRow) (tl : List DailyRow) (d : Nat)
    (m : Mod) (f : Fmt) (h : r.stats_date = d) :
    updateDaily (r :: tl) d m f = incrCounters r m f :: updateDaily tl d m f := by
  simp [updateDaily, h]

theorem updateDaily_cons_neg (r : DailyRow) (tl : List DailyRow) (d : Nat)
    (m : Mod) (f : Fmt) (h : ¬r.stats_date = d) :
    updateDaily (r :: tl) d m f = r :: updateDaily tl d m f := by
  simp [updateDaily, h]

theorem sumT_update_self (dl : List DailyRow) (d : Nat) (m : Mod) (f : Fmt) :
    sumT (updateDaily dl d m f) d = sumT dl d + countDate dl d := by
  induction dl with
  | nil => simp [sumT, updateDaily, countDate]
  | cons r tl ih =>
    by_cases h : r.stats_date = d
    · rw [updateDaily_cons_pos r tl d m f h, sumT_cons, sumT_cons, countDate_cons, ih,
        incrCounters_stats_date, rowTotal_incrCounters]
      simp only [h, if_true]
      omega
    · rw [updateDaily_cons_neg r tl d m f h, sumT_cons, sumT_cons, countDate_cons, ih]
      simp only [h, if_false]
      omega

theorem sumB_update_self (dl : List DailyRow) (d : Nat) (m : Mod) (f : Fmt) :
    sumB (updateDaily dl d m f) d = sumB dl d + countDate dl d := by
  induction dl with
  | nil => simp [sumB, updateDaily, countDate]
  | cons r tl ih =>
    by_cases h : r.stats_date = d
    · rw [updateDaily_cons_pos r tl d m f h, sumB_cons, sumB_cons, countDate_cons, ih,
        incrCounters_stats_date, rowBo_incrCounters]
      simp only [h, if_true]
      omega
    · rw [updateDaily_cons_neg r tl d m f h, sumB_cons, sumB_cons, countDate_cons, ih]
      simp only [h, if_false]
      omega

theorem countDate_ensure (dl : List DailyRow) (d : Nat) (h : countDate dl d ≤ 1) :
    countDate (ensure_daily_record dl d) d = 1 := by
  unfold ensure_daily_record
  by_cases hany : dl.any (fun r => r.stats_date = d) = true
  · rcases List.any_eq_true.mp hany with ⟨a, ha, hpa⟩
    have hpos : 0 < countDate dl d :=
      List.countP_pos_iff.mpr ⟨a, ha, hpa⟩
    simp only [hany, if_true]
    omega
  · simp only [hany, if_false, Bool.false_eq_true, countDate, List.countP_append]
    have h0 : dl.countP (fun r => decide (r.stats_date = d)) = 0 := by
      rw [List.countP_eq_zero]
      intro a ha
      by_contra hpa
      exact hany (List.any_eq_true.mpr ⟨a, ha, by simpa using hpa⟩)
    simp [h0]

theorem sumT_ensure (dl : List DailyRow) (d dq : Nat) :
    sumT (ensure_daily_record dl d) dq = sumT dl dq := by
  unfold ensure_daily_record
  by_cases hany : dl.any (fun r => r.stats_date = d) = true
  · simp [hany]
  · simp [hany, sumT, rowTotal]

theorem sumB_ensure (dl : List DailyRow) (d dq : Nat) :
    sumB (ensure_daily_record dl d) dq = sumB dl dq := by
  unfold ensure_daily_record
  by_cases hany : dl.any (fun r => r.stats_date = d) = true
  · simp [hany]
  · simp [hany, sumB, rowBo]

/-! ## The aggregator claims -/

/-- The state a successful finish call commits. -/
theorem try_finish_success_state (s : GameServer) (d : Nat) (st : Store)
    (h1 : invalid_score (normalize_score s.score) = false)
    (h2 : st.finished.any (fun r => r.match_id = s.match_id) = false) :
    try_finish_match s d st =
      (true,
        { finished := st.finished ++ [insertedRow s d]
          daily := updateDaily (ensure_daily_record st.daily d) d (detect_mod s)
            (detect_format s) }) := by
  simp [try_finish_match, insertedRow, h1, h2]

/-- C2: evaluation of the finish operation at the failing interleaving.
A concurrent worker commits the day's `daily_stats` row between the
existence check and the flush inside `_ensure_daily_record` while the
`Alice vs Bob` record (valid score) is being finished on a day with no
prior row: the `except IntegrityError` branch rolls back the whole
transaction — undoing the flushed FinishedMatch insert — yet the call
still commits the counter update in a fresh transaction and returns
`true`.  The committed store holds an incremented counter and NO
FinishedMatch row, so the claimed atomicity invariant (a counter is never
incremented without its row persisting in the same committed transaction)
fails on the code. -/
theorem stats_finish_race_increments_without_row :
    (try_finish_match_race srvAliceBob 7 Store.empty).1 = true ∧
    (try_finish_match_race srvAliceBob 7 Store.empty).2.finished = [] ∧
    sumT (try_finish_match_race srvAliceBob 7 Store.empty).2.daily 7 = 1 ∧
    countFin (try_finish_match_race srvAliceBob 7 Store.empty).2.finished 7 = 0 ∧
    ¬CountersMatch (try_finish_match_race srvAliceBob 7 Store.empty).2 := by
  refine ⟨by decide, by decide, by decide, by decide, ?_⟩
  intro h
  have h7 := (h 7).1
  revert h7
  decide

/-- C1 counterexample: for the record with placeholder score `"0/0"`, two
finish calls with the same `matchId` leave ZERO FinishedMatch rows — not
exactly one as the claim states for every record — because the score is
rejected before any insert; both calls return `false` on the empty
store. -/
theorem stats_finish_rejected_score_no_row :
    (try_finish_match srvPlaceholderScore 7 Store.empty).1 = false ∧
    (try_finish_match srvPlaceholderScore 7
        (try_finish_match srvPlaceholderScore 7 Store.empty).2).1 = false ∧
    ((try_finish_match srvPlaceholderScore 7
        (try_finish_match srvPlaceholderScore 7 Store.empty).2).2).finished.countP
      (fun r => r.match_id = srvPlaceholderScore.match_id) = 0 ∧
    ¬(((try_finish_match srvPlaceholderScore 7
        (try_finish_match srvPlaceholderScore 7 Store.empty).2).2).finished.countP
      (fun r => r.match_id = srvPlaceholderScore.match_id) = 1) := by decide

/-- C1 amended: provided the record's normalized score is not rejected
(non-empty and not a placeholder), calling the finish operation twice
with the same `matchId` from a store with no row for it leaves exactly
one FinishedMatch row for that `matchId` and increments the daily
counters exactly once; the second call, finding the row already present,
returns `false` and makes no change.  (For a rejected score both calls
return `false` and leave no row — the counterexample.) -/
theorem stats_finish_idempotent_amended (s : GameServer) (d : Nat) (st : Store)
    (hscore : invalid_score (normalize_score s.score) = false)
    (hfresh : st.finished.any (fun r => r.match_id = s.match_id) = false)
    (hdaily : countDate st.daily d ≤ 1) :
    (try_finish_match s d st).1 = true ∧
    try_finish_match s d (try_finish_match s d st).2 =
      (false, (try_finish_match s d st).2) ∧
    (try_finish_match s d st).2.finished.countP
      (fun r => r.match_id = s.match_id) = 1 ∧
    sumT (try_finish_match s d st).2.daily d = sumT st.daily d + 1 ∧
    sumB (try_finish_match s d st).2.daily d = sumB st.daily d + 1 := by
  have hsucc := try_finish_success_state s d st hscore hfresh
  rw [hsucc]
  have h0 : st.finished.countP (fun r => r.match_id = s.match_id) = 0 := by
    rw [List.countP_eq_zero]
    intro a ha hpa
    have hone : st.finished.any (fun r => r.match_id = s.match_id) = true :=
      List.any_eq_true.mpr ⟨a, ha, hpa⟩
    rw [hone] at hfresh
    exact Bool.true_eq_false.mp hfresh
  refine ⟨rfl, ?_, ?_, ?_, ?_⟩
  · have hany2 : (st.finished ++ [insertedRow s d]).any
        (fun r => r.match_id = s.match_id) = true := by
      simp [List.any_append, insertedRow]
    simp [try_finish_match, hscore, hany2]
  · simp [List.countP_append, insertedRow, h0]
  · show sumT (updateDaily (ensure_daily_record st.daily d) d (detect_mod s)
      (detect_format s)) d = sumT st.daily d + 1
    rw [sumT_update_self, sumT_ensure, countDate_ensure st.daily d hdaily]
  · show sumB (updateDaily (ensure_daily_record st.daily d) d (detect_mod s)
      (detect_format s)) d = sumB st.daily d + 1
    rw [sumB_update_self, sumB_ensure, countDate_ensure st.daily d hdaily]

/-- C1 witness: the amended theorem applied to the `Alice vs Bob` record
and the empty store. -/
theorem stats_finish_idempotent_witness :
    (try_finish_match srvAliceBob 7 Store.empty).1 = true ∧
    try_finish_match srvAliceBob 7 (try_finish_match srvAliceBob 7 Store.empty).2 =
      (false, (try_finish_match srvAliceBob 7 Store.empty).2) ∧
    (try_finish_match srvAliceBob 7 Store.empty).2.finished.countP
      (fun r => r.match_id = srvAliceBob.match_id) = 1 ∧
    sumT (try_finish_match srvAliceBob 7 Store.empty).2.daily 7 =
      sumT Store.empty.daily 7 + 1 ∧
    sumB (try_finish_match srvAliceBob 7 Store.empty).2.daily 7 =
      sumB Store.empty.daily 7 + 1 :=
  stats_finish_idempotent_amended srvAliceBob 7 Store.empty (by decide) (by decide)
    (by decide)

end TennisHub
